import Mathlib

/-!
Verification of the Neon-database natural-language-analytics repository.

The development shallowly embeds the JavaScript source files:
* `server.js` ("Complete Fixed Version"): the `isValidSqlQuery` shape
  validator and the `POST /api/query` handler;
* `ai.js` ("Fixed version"): `getAiSql` (retry loop with code-fence cleanup)
  and `getAiSummary` (retry loop with fallback messages), plus the legacy
  `ai.js` variants where a claim refers to them;
* `db.js`: `executeQuery` over a pooled connection;
* `load_excel.mjs`: the ETL record loop (counters, metric back-fill, fact
  upsert) together with the `fact_session` natural-key upsert of
  `schema.sql`.

External services (the Groq chat API, the Postgres engine, the connection
pool, the dayjs date parser) are modelled as oracle parameters: a function
from attempt number to an outcome, or an outcome value, so that every
control path of the embedded code is a pure Lean computation.
-/

/-! ## JavaScript string primitives

Character-level models of the string operations the source uses:
`String.prototype.trim`, the regexes `/^\s*(WITH|SELECT)\s+/i`,
`/\bFROM\s+/i`, `/\bSELECT\s+/i`, `String.prototype.includes`, and global
`String.prototype.replace` with the literal fence patterns.  JS `\s` and
`trim` use the same whitespace class; we model its common members (ASCII
whitespace plus no-break space), which suffices for every concrete string
in the repository and keeps the embedding internally consistent. -/

/-- JS whitespace class (`\s`, also `trim`): space, tab, LF, VT, FF, CR,
NBSP. -/
def jsWs (c : Char) : Bool :=
  c = ' ' || c = '\t' || c = '\n' || c = Char.ofNat 11 || c = Char.ofNat 12 ||
  c = '\r' || c = Char.ofNat 160

/-- JS word character class (`\w`): ASCII letters, digits, underscore. -/
def isWordChar (c : Char) : Bool :=
  c.isAlpha || c.isDigit || c = '_'

/-- Drop leading JS whitespace (the `^\s*` part of an anchored regex, and
the left half of `trim`). -/
def dropLeadWs (l : List Char) : List Char := l.dropWhile jsWs

/-- Drop trailing JS whitespace (the right half of `trim`). -/
def dropTrailWs (l : List Char) : List Char := (l.reverse.dropWhile jsWs).reverse

/-- Model of `String.prototype.trim` on the character list. -/
def jsTrim (l : List Char) : List Char := dropTrailWs (dropLeadWs l)

/-- Model of `s.trim()` on strings. -/
def jsTrimStr (s : String) : String := String.mk (jsTrim s.toList)

/-- Case-insensitive match of the (uppercase) pattern `p` against the front
of `l`; on success returns the rest of `l` after the match.  Models matching
a literal-keyword regex fragment under the `i` flag. -/
def ciMatch : List Char → List Char → Option (List Char)
  | [], rest => some rest
  | _ :: _, [] => none
  | p :: ps, c :: cs => if p = c.toUpper then ciMatch ps cs else none

/-- The regex fragment `KW\s+` at the start of `l` (case-insensitive):
the keyword followed by at least one whitespace character. -/
def kwAt (kw : List Char) (l : List Char) : Bool :=
  match ciMatch kw l with
  | some (d :: _) => jsWs d
  | _ => false

def withKw : List Char := ['W', 'I', 'T', 'H']
def selectKw : List Char := ['S', 'E', 'L', 'E', 'C', 'T']
def fromKw : List Char := ['F', 'R', 'O', 'M']

/-- Model of `/^\s*(WITH|SELECT)\s+/i.test l`. -/
def startRegex (l : List Char) : Bool :=
  kwAt withKw (dropLeadWs l) || kwAt selectKw (dropLeadWs l)

/-- Model of `/\bKW\s+/i.test l`: scan every position; `atB` records whether the
previous character was a non-word character (or the start of the string),
which is exactly when `\b` holds in front of a keyword beginning with a
word character. -/
def kwSearch (kw : List Char) : List Char → Bool → Bool
  | [], _ => false
  | c :: cs, atB =>
    (atB && kwAt kw (c :: cs)) || kwSearch kw cs (!(isWordChar c))

/-- Model of `/\bFROM\s+/i.test s`. -/
def hasFromKw (s : String) : Bool := kwSearch fromKw s.toList true

/-- Model of `/\bSELECT\s+/i.test s`. -/
def hasSelectKw (s : String) : Bool := kwSearch selectKw s.toList true

/-! ## The SQL shape validator (`server.js`, `isValidSqlQuery`) -/

/-- The candidate value passed to the validator: a JS string, or any
non-string value (`undefined`, `null`, a number, ...), all of which fail
the `typeof sqlQuery !== "string"` guard. -/
inductive JsInput where
  | str (s : String)
  | nonString
deriving DecidableEq

/-- The function `isValidSqlQuery` from `server.js` (Complete Fixed Version):
reject non-strings and falsy strings, trim, reject when empty after trim,
require `/^\s*(WITH|SELECT)\s+/i`, then require `/\bFROM\s+/i` or
`/\bSELECT\s+/i`, all tested against the trimmed candidate. -/
def isValidSqlQuery : JsInput → Bool
  | .nonString => false
  | .str s =>
    if s.toList.isEmpty then false
    else if (jsTrim s.toList).isEmpty then false
    else if !(startRegex (jsTrim s.toList)) then false
    else kwSearch fromKw (jsTrim s.toList) true ||
         kwSearch selectKw (jsTrim s.toList) true

/-! ## The generation service oracle

`groq.chat.completions.create` either resolves with a message content
(`chatCompletion.choices[0]?.message?.content`, possibly absent) or rejects
with an error carrying a message and possibly an HTTP `status`.  The oracle
maps the attempt number to that outcome. -/

inductive SvcOut where
  | ok (content : Option String)
  | err (status : Option Nat) (msg : String)

def statusOf : SvcOut → Option Nat
  | .err st _ => st
  | .ok _ => none

def errMsgOf : SvcOut → String
  | .err _ m => m
  | .ok _ => ""

def isErrOut : SvcOut → Bool
  | .err _ _ => true
  | .ok _ => false

/-! ## Code-fence cleanup in `getAiSql` (`ai.js`, Fixed version)

`cleanSql.replace(/<fence>sql\n?/g, "").replace(/<fence>\n?/g, "")` and
`replace(/<fence>/g, "")`, guarded by `includes`.  Global `replace` scans
left to right, removing non-overlapping matches; we run it with the list
length as fuel, which bounds the number of scan steps. -/

/-- Does `pat` match at the front of `l`?  On success return the rest. -/
def stripFront : List Char → List Char → Option (List Char)
  | [], rest => some rest
  | _ :: _, [] => none
  | p :: ps, c :: cs => if p = c then stripFront ps cs else none

/-- Model of `String.prototype.includes pat` on lists. -/
def hasSub (pat : List Char) : List Char → Bool
  | [] => pat.isEmpty
  | c :: cs => (stripFront pat (c :: cs)).isSome || hasSub pat cs

/-- One global `replace(/pat\n?/g, "")` (`optNl` = whether the pattern has
the trailing `\n?`), with explicit fuel (passing `l.length` suffices since
every step consumes at least one character when `pat` is non-empty). -/
def replacePat (pat : List Char) (optNl : Bool) : Nat → List Char → List Char
  | 0, _ => []
  | _ + 1, [] => []
  | fuel + 1, c :: cs =>
    match stripFront pat (c :: cs) with
    | some rest =>
      replacePat pat optNl fuel
        (if optNl then
          match rest with
          | '\n' :: t => t
          | _ => rest
        else rest)
    | none => c :: replacePat pat optNl fuel cs

def fenceSql : List Char := "```sql".toList
def fence : List Char := "```".toList

/-- The fence-stripping block of `getAiSql`, applied to the non-empty
trimmed response `sq`. -/
def cleanupSql (sq : List Char) : List Char :=
  let a :=
    if hasSub fenceSql sq then
      let b := replacePat fenceSql true sq.length sq
      jsTrim (replacePat fence true b.length b)
    else sq
  if hasSub fence a then jsTrim (replacePat fence false a.length a) else a

/-! ## `getAiSql` (`ai.js`, Fixed version)

The retry loop `for (attempt = 1; attempt <= maxRetries; attempt++)`.
Inside the `try`: call the service, take
`content?.trim() || ""`, throw `Empty SQL response from AI` when falsy,
otherwise clean fences and return.  The `catch` retries with a
`attempt * 2000` ms delay when `error.status === 503 && attempt <
maxRetries`, rethrows a wrapped message when `attempt === maxRetries`, and
otherwise falls through to the next iteration with no delay. -/

/-- One `try` body: either the cleaned SQL, or the caught
`(status, message)`. -/
def attemptOnce (o : SvcOut) : Except (Option Nat × String) String :=
  match o with
  | .err st m => .error (st, m)
  | .ok content =>
    let sq := jsTrimStr (content.getD "")
    if sq = "" then .error (none, "Empty SQL response from AI")
    else .ok (String.mk (cleanupSql sq.toList))

/-- Result of a `getAiSql` run: the returned value (`none` models the JS
`undefined` of a loop that exits without returning) or the thrown message,
the number of service calls made, and the list of sleep durations (ms)
performed between attempts. -/
structure SqlRun where
  result : Except String (Option String)
  calls : Nat
  delays : List Nat

def getAiSqlLoop (service : Nat → SvcOut) (maxRetries : Nat) :
    Nat → Nat → SqlRun
  | _, 0 => ⟨.ok none, 0, []⟩
  | attempt, fuel + 1 =>
    match attemptOnce (service attempt) with
    | .ok sql => ⟨.ok (some sql), 1, []⟩
    | .error (st, msg) =>
      if st = some 503 ∧ attempt < maxRetries then
        let r := getAiSqlLoop service maxRetries (attempt + 1) fuel
        ⟨r.result, r.calls + 1, attempt * 2000 :: r.delays⟩
      else if attempt = maxRetries then
        ⟨.error ("Failed to generate SQL after " ++ toString maxRetries ++
          " attempts: " ++ msg), 1, []⟩
      else
        let r := getAiSqlLoop service maxRetries (attempt + 1) fuel
        ⟨r.result, r.calls + 1, r.delays⟩

/-- The function `getAiSql(userQuery, maxRetries)`: run the loop from attempt 1.  The
user query only feeds the prompt, which does not influence control flow,
so it is absorbed into the service oracle. -/
def getAiSql (service : Nat → SvcOut) (maxRetries : Nat) : SqlRun :=
  getAiSqlLoop service maxRetries 1 maxRetries

/-- A service response whose content is falsy after `trim` (absent content
or whitespace-only), i.e. exactly the responses that trip the
`Empty SQL response from AI` throw. -/
def emptyResponse : SvcOut → Bool
  | .ok c => jsTrimStr (c.getD "") = ""
  | .err _ _ => false

/-! ## `getAiSummary` (`ai.js`, Fixed version) -/

def noResultsMsg : String :=
  "Query executed successfully but returned no results."

def exhaustMsg (n : Nat) : String :=
  "Query executed successfully and returned " ++ toString n ++
  " result(s). Please review the data below."

def foundMsg (n : Nat) : String :=
  "Query found " ++ toString n ++ " result(s). See the data table for details."

/-- Result of a `getAiSummary` run: the value (always a return in this
function — `Except.error` would model an uncaught throw, which no path of
the Fixed version produces; `Except.ok none` models the JS `undefined` of a
loop that exits without returning) and the number of service calls. -/
structure SummaryRun where
  result : Except String (Option String)
  calls : Nat

/-- The `for (attempt = 1; attempt <= maxRetries; attempt++)` loop of
`getAiSummary`, for a row set of size `n`.  On success the return value is
`content?.trim() || foundMsg n`; on a caught error the final attempt
returns `exhaustMsg n`, and a non-final attempt retries (sleeping only for
status 503 — the sleep does not affect the result, so it is not tracked
here). -/
def getAiSummaryLoop (service : Nat → SvcOut) (n : Nat) (maxRetries : Nat) :
    Nat → Nat → SummaryRun
  | _, 0 => ⟨.ok none, 0⟩
  | attempt, fuel + 1 =>
    match service attempt with
    | .ok content =>
      let s := jsTrimStr (content.getD "")
      ⟨.ok (some (if s = "" then foundMsg n else s)), 1⟩
    | .err _ _ =>
      if attempt = maxRetries then ⟨.ok (some (exhaustMsg n)), 1⟩
      else
        let r := getAiSummaryLoop service n maxRetries (attempt + 1) fuel
        ⟨r.result, r.calls + 1⟩

/-- The function `getAiSummary(userQuery, sqlQuery, data, maxRetries)`: short-circuit on
`!data || data.length === 0`, else run the retry loop.  `data` is `none`
for a null/undefined row set. -/
def getAiSummary {α : Type} (service : Nat → SvcOut) (data : Option (List α))
    (maxRetries : Nat) : SummaryRun :=
  match data with
  | none => ⟨.ok (some noResultsMsg), 0⟩
  | some [] => ⟨.ok (some noResultsMsg), 0⟩
  | some rows => getAiSummaryLoop service rows.length maxRetries 1 maxRetries

/-- Legacy `ai.js` `getAiSummary`: same empty-set short-circuit (with its
own message text), a single service call otherwise, and a thrown
`Failed to generate summary from GROQ API.` on failure. -/
def getAiSummaryLegacy {α : Type} (service : SvcOut) (data : Option (List α)) :
    SummaryRun :=
  match data with
  | none => ⟨.ok (some "The query ran successfully, but returned no results."), 0⟩
  | some [] => ⟨.ok (some "The query ran successfully, but returned no results."), 0⟩
  | some _ =>
    match service with
    | .ok content =>
      let s := jsTrimStr (content.getD "")
      ⟨.ok (some (if s = "" then "Could not generate a summary." else s)), 1⟩
    | .err _ _ => ⟨.error "Failed to generate summary from GROQ API.", 1⟩

/-! ## `executeQuery` (`db.js`)

`pool.connect()` and `client.query(sql, params)` are oracles.  `acquired`
records whether `client` was assigned; `released` whether the `finally`
block called `client.release()` (it does exactly when `client` is set). -/

structure DbRun (α : Type) where
  result : Except String (List α)
  acquired : Bool
  released : Bool

/-- The function `executeQuery`: acquire, query, wrap any caught error as
`Database execution error: <message>`, release in `finally` whenever a
client was acquired. -/
def executeQuery {α : Type} (connect : Except String Unit)
    (run : Except String (List α)) : DbRun α :=
  match connect with
  | .error m => ⟨.error ("Database execution error: " ++ m), false, false⟩
  | .ok _ =>
    match run with
    | .ok rows => ⟨.ok rows, true, true⟩
    | .error m => ⟨.error ("Database execution error: " ++ m), true, true⟩

/-! ## The `POST /api/query` handler (`server.js`, Complete Fixed Version)

The handler destructures `query` from the JSON body (modelled as
`Option String`: `none` for a missing field), returns
`400 Query is required.` when falsy, and otherwise drives generation
(`getAiSql`, default `maxRetries = 3`), validation, execution, and
summarization (`getAiSummary`, default `maxRetries = 2`), classifying any
caught error by inspecting its message. -/

structure ApiResponse where
  status : Nat
  error : Option String
  data : Option (List String)
  summary : Option String
  sql : Option String
deriving DecidableEq

/-- Which pipeline stages ran: number of generation-service calls, whether
`isValidSqlQuery` ran, whether `executeQuery` ran, number of
summarization-service calls. -/
structure CallLog where
  genCalls : Nat
  validatorCalled : Bool
  dbCalled : Bool
  summaryCalls : Nat
deriving DecidableEq

/-- The `catch` block of the handler: classify by message content. -/
def catchClassify (msg : String) : ApiResponse :=
  if hasSub "Service unavailable".toList msg.toList ||
     hasSub "503".toList msg.toList then
    ⟨503, some "AI service temporarily unavailable", none, none, none⟩
  else if hasSub "Database execution error".toList msg.toList then
    ⟨500, some "Database query failed", none, none, none⟩
  else ⟨500, some "Internal server error", none, none, none⟩

def handleApiQuery (sqlSvc sumSvc : Nat → SvcOut)
    (connect : Except String Unit) (run : Except String (List String))
    (body : Option String) : ApiResponse × CallLog :=
  match body with
  | none =>
    (⟨400, some "Query is required.", none, none, none⟩, ⟨0, false, false, 0⟩)
  | some q =>
    if q = "" then
      (⟨400, some "Query is required.", none, none, none⟩, ⟨0, false, false, 0⟩)
    else
      let gen := getAiSql sqlSvc 3
      match gen.result with
      | .error msg => (catchClassify msg, ⟨gen.calls, false, false, 0⟩)
      | .ok none =>
        -- the loop returned `undefined`; `isValidSqlQuery(undefined)` fails
        (⟨500, some "Generated SQL query is invalid", none, none, none⟩,
         ⟨gen.calls, true, false, 0⟩)
      | .ok (some sql) =>
        if !(isValidSqlQuery (.str sql)) then
          (⟨500, some "Generated SQL query is invalid", none, none, none⟩,
           ⟨gen.calls, true, false, 0⟩)
        else
          let db := executeQuery connect run
          match db.result with
          | .error msg => (catchClassify msg, ⟨gen.calls, true, true, 0⟩)
          | .ok rows =>
            let summ := getAiSummary sumSvc (some rows) 2
            match summ.result with
            | .ok (some s) =>
              (⟨200, none, some rows, some s, some sql⟩,
               ⟨gen.calls, true, true, summ.calls⟩)
            | .ok none =>
              -- `summary.substring` on `undefined` throws; outer catch
              (⟨500, some "Internal server error", none, none, none⟩,
               ⟨gen.calls, true, true, summ.calls⟩)
            | .error msg =>
              (catchClassify msg, ⟨gen.calls, true, true, summ.calls⟩)

/-! ## The ETL record loop (`load_excel.mjs`, `main`)

A record carries the values already extracted by `pick`/`t`/`num`/`pct`
from the sheet row, plus the outcome of `normalizePstDate` (whose dayjs
parsing is external and is therefore an oracle input).  Numbers are
rationals.  The `inserted_flag` the database returns for the row
(`xmax = 0`) is a per-record oracle. -/

structure RawRecord where
  topic : String
  type : String
  domain : String
  clazz : String
  instr : String
  average : Option ℚ
  responses : Option ℚ
  attended : Option ℚ
  ratedPct : Option ℚ
  pstDateNorm : Option String
deriving DecidableEq

/-- What processing one record does. `fatal` models an uncaught exception,
which aborts the whole run via `main().catch`. -/
inductive RowStep where
  | fatal (msg : String)
  | skippedMissing
  | skippedBadDate
  | upserted (insertedFlag : Bool)
deriving DecidableEq

/-- The value `let rated = pct(...)`, back-filled from `responses / attended * 100`
when absent and both others present with `attended > 0`. -/
def ratedBackfill (r : RawRecord) : Option ℚ :=
  match r.ratedPct with
  | some x => some x
  | none =>
    match r.responses, r.attended with
    | some resp, some att => if 0 < att then some (resp / att * 100) else none
    | _, _ => none

/-- Math.round: round half toward positive infinity. -/
def jsRound (x : ℚ) : ℤ := Int.floor (x + 1 / 2)

/-- The expression `Math.round(attended * (rated / 100))` on the
responses-back-fill line of `load_excel.mjs`. -/
def deriveResponses (attended rated : ℚ) : ℤ := jsRound (attended * (rated / 100))

/-- One iteration of `for (const r of rows)`.  When `responses` is absent
while `attended` and (back-filled) `rated` are present, the source assigns
to the `const responses` binding, which raises a `TypeError` at run time;
otherwise the record is skipped for a missing required field, skipped for
an unparseable date, or upserted. -/
def processRow (r : RawRecord) (insertedFlag : Bool) : RowStep :=
  if r.responses = none ∧ r.attended ≠ none ∧ ratedBackfill r ≠ none then
    .fatal "TypeError: Assignment to constant variable."
  else if r.type = "" ∨ r.domain = "" ∨ r.clazz = "" ∨ r.instr = "" then
    .skippedMissing
  else
    match r.pstDateNorm with
    | none => .skippedBadDate
    | some _ => .upserted insertedFlag

structure EtlCounts where
  inserted : Nat
  updated : Nat
  skipped : Nat
  badDate : Nat
deriving DecidableEq

/-- The batch loop with its four counters.  A bad date increments both
`badDate` and `skipped` (`badDate++; skipped++; continue`).  A `fatal`
step aborts the run (`main().catch` → `process.exit(1)`), so no counts are
reported. -/
def runEtl : List (RawRecord × Bool) → Except String EtlCounts
  | [] => .ok ⟨0, 0, 0, 0⟩
  | rb :: rest =>
    match processRow rb.1 rb.2 with
    | .fatal m => .error m
    | .skippedMissing =>
      match runEtl rest with
      | .error m => .error m
      | .ok c => .ok {c with skipped := c.skipped + 1}
    | .skippedBadDate =>
      match runEtl rest with
      | .error m => .error m
      | .ok c => .ok {c with badDate := c.badDate + 1, skipped := c.skipped + 1}
    | .upserted true =>
      match runEtl rest with
      | .error m => .error m
      | .ok c => .ok {c with inserted := c.inserted + 1}
    | .upserted false =>
      match runEtl rest with
      | .error m => .error m
      | .ok c => .ok {c with updated := c.updated + 1}

/-- Records whose processing step is a missing-required-field skip. -/
def countMissing (rows : List (RawRecord × Bool)) : Nat :=
  rows.countP (fun rb => decide (processRow rb.1 rb.2 = RowStep.skippedMissing))

/-- Records whose processing step is a bad-date skip. -/
def countBadDate (rows : List (RawRecord × Bool)) : Nat :=
  rows.countP (fun rb => decide (processRow rb.1 rb.2 = RowStep.skippedBadDate))

/-! ## The fact upsert (`load_excel.mjs` INSERT ... ON CONFLICT and
`schema.sql` `fact_session`)

A `fact_session` row with the columns of the INSERT statement.  The
`ON CONFLICT (topic_code, type_id, domain_id, class_id, instructor_id,
pst_date) DO UPDATE SET` clause overwrites exactly `average`, `responses`,
`students_attended`, `rated_pct` with the excluded row's values.  Conflict
detection follows the UNIQUE constraint of `schema.sql` with SQL NULL
semantics: a NULL `topic_code` never conflicts. -/

structure FactRow where
  topic_code : Option String
  type_id : Nat
  domain_id : Nat
  class_id : Nat
  instructor_id : Nat
  session_ts_utc : String
  pst_date : String
  pst_year : Int
  pst_month : Int
  pst_quarter : Int
  pst_month_start : String
  average : Option ℚ
  responses : Option ℚ
  students_attended : Option ℚ
  rated_pct : Option ℚ
deriving DecidableEq

/-- Natural-key conflict between a stored row and the incoming row. -/
def sqlKeyMatch (a b : FactRow) : Bool :=
  decide (a.topic_code ≠ none ∧ a.topic_code = b.topic_code ∧
    a.type_id = b.type_id ∧ a.domain_id = b.domain_id ∧
    a.class_id = b.class_id ∧ a.instructor_id = b.instructor_id ∧
    a.pst_date = b.pst_date)

/-- Model of `DO UPDATE SET average = EXCLUDED.average, responses = EXCLUDED.responses,
students_attended = EXCLUDED.students_attended, rated_pct = EXCLUDED.rated_pct`. -/
def metricOverwrite (old excluded : FactRow) : FactRow :=
  { old with
    average := excluded.average
    responses := excluded.responses
    students_attended := excluded.students_attended
    rated_pct := excluded.rated_pct }

/-- The INSERT ... ON CONFLICT ... DO UPDATE statement against a table
state. -/
def upsertFact (db : List FactRow) (row : FactRow) : List FactRow :=
  if db.any (fun r => sqlKeyMatch r row) then
    db.map (fun r => if sqlKeyMatch r row then metricOverwrite r row else r)
  else db ++ [row]

/-- A stored fact row for the C6 witness. -/
def factRowA : FactRow :=
  ⟨some "T101", 1, 2, 3, 4, "2025-01-04T17:00:00Z", "2025-01-04",
   2025, 1, 1, "2025-01-01", some 3, some 10, some 20, some 50⟩

/-- An incoming row with the same natural key but different calendar and
metric values, for the C6 witness. -/
def factRowB : FactRow :=
  ⟨some "T101", 1, 2, 3, 4, "1999-12-31T17:00:00Z", "2025-01-04",
   1999, 12, 4, "1999-12-01", some (9 / 2 : ℚ), some 12, some 24, some 60⟩

/-! ## Lemmas relating the trimmed candidate to the raw candidate

`isValidSqlQuery` runs its regex tests on the trimmed candidate; the spec
states them of the candidate itself.  Trimming only removes surrounding
whitespace, so a match on the trimmed string yields a match on the raw
string.  The lemmas below make that transfer precise. -/

theorem ciMatch_append {kw l r : List Char} (w : List Char)
    (h : ciMatch kw l = some r) : ciMatch kw (l ++ w) = some (r ++ w) := by
  induction kw generalizing l with
  | nil =>
    simp only [ciMatch] at h
    cases h
    rfl
  | cons p ps ih =>
    cases l with
    | nil => simp [ciMatch] at h
    | cons c cs =>
      simp only [ciMatch] at h ⊢
      by_cases hc : p = c.toUpper
      · simpa [hc] using ih (by simpa [hc] using h)
      · simp [hc] at h

theorem kwAt_append {kw l : List Char} (w : List Char)
    (h : kwAt kw l = true) : kwAt kw (l ++ w) = true := by
  unfold kwAt at h ⊢
  cases hm : ciMatch kw l with
  | none => rw [hm] at h; exact absurd h (by simp)
  | some rest =>
    cases rest with
    | nil => rw [hm] at h; exact absurd h (by simp)
    | cons d ds =>
      rw [hm] at h
      rw [ciMatch_append w hm]
      simpa using h

theorem dropTrailWs_prefixOf (l : List Char) : dropTrailWs l <+: l := by
  have h1 : l.reverse.dropWhile jsWs <:+ l.reverse := List.dropWhile_suffix jsWs
  have h2 : (l.reverse.dropWhile jsWs).reverse <+: l.reverse.reverse :=
    List.reverse_prefix.mpr h1
  simpa [dropTrailWs] using h2

theorem prefix_cons_shape {p : List Char} {d : Char} {r : List Char}
    (h : p <+: (d :: r)) : p = [] ∨ ∃ q, p = d :: q := by
  cases p with
  | nil => exact Or.inl rfl
  | cons a as =>
    obtain ⟨t, ht⟩ := h
    refine Or.inr ⟨as, ?_⟩
    have : a = d := by
      have := congrArg (fun x => x.head?) ht
      simpa using this
    rw [this]

theorem dropLeadWs_head (l : List Char) :
    dropLeadWs l = [] ∨ ∃ d r, dropLeadWs l = d :: r ∧ jsWs d = false := by
  induction l with
  | nil => exact Or.inl rfl
  | cons c cs ih =>
    by_cases hc : jsWs c
    · simpa [dropLeadWs, List.dropWhile_cons, hc] using ih
    · exact Or.inr ⟨c, cs, by simp [dropLeadWs, List.dropWhile_cons, hc], by simpa using hc⟩

theorem kwAt_dropLead_jsTrim {kw l : List Char} (hk : kw ≠ [])
    (h : kwAt kw (dropLeadWs (jsTrim l)) = true) :
    kwAt kw (dropLeadWs l) = true := by
  have hkwnil : kwAt kw [] = false := by
    cases kw with
    | nil => exact absurd rfl hk
    | cons p ps => rfl
  rcases dropLeadWs_head l with h0 | ⟨d, r, hdr, hdw⟩
  · rw [jsTrim, h0] at h
    have h2 : kwAt kw ([] : List Char) = true := h
    rw [hkwnil] at h2
    exact absurd h2 (by simp)
  · rw [jsTrim, hdr] at h
    rcases prefix_cons_shape (dropTrailWs_prefixOf (d :: r)) with h1 | ⟨q, hq⟩
    · rw [h1] at h
      have h2 : kwAt kw ([] : List Char) = true := h
      rw [hkwnil] at h2
      exact absurd h2 (by simp)
    · rw [hq] at h
      have hdl : dropLeadWs (d :: q) = d :: q := by
        simp [dropLeadWs, List.dropWhile_cons, hdw]
      rw [hdl] at h
      obtain ⟨w, hw⟩ := dropTrailWs_prefixOf (d :: r)
      rw [hq] at hw
      rw [hdr, ← hw]
      exact kwAt_append w h

theorem startRegex_jsTrim {l : List Char}
    (h : startRegex (jsTrim l) = true) : startRegex l = true := by
  unfold startRegex at h ⊢
  rcases Bool.or_eq_true_iff.mp h with h1 | h1
  · exact Bool.or_eq_true_iff.mpr (Or.inl (kwAt_dropLead_jsTrim (by decide) h1))
  · exact Bool.or_eq_true_iff.mpr (Or.inr (kwAt_dropLead_jsTrim (by decide) h1))

theorem kwSearch_append_right {kw t : List Char} (v : List Char) {b : Bool}
    (h : kwSearch kw t b = true) : kwSearch kw (t ++ v) b = true := by
  induction t generalizing b with
  | nil => simp [kwSearch] at h
  | cons c cs ih =>
    simp only [kwSearch, Bool.or_eq_true, Bool.and_eq_true] at h
    rcases h with ⟨hb, hat⟩ | hrec
    · simp only [List.cons_append, kwSearch, Bool.or_eq_true, Bool.and_eq_true]
      exact Or.inl ⟨hb, kwAt_append v hat⟩
    · simp only [List.cons_append, kwSearch, Bool.or_eq_true]
      exact Or.inr (ih hrec)

theorem jsWs_not_word {c : Char} (h : jsWs c = true) : isWordChar c = false := by
  simp only [jsWs, Bool.or_eq_true, decide_eq_true_eq] at h
  rcases h with ((((((h | h) | h) | h) | h) | h) | h) <;> subst h <;> decide

theorem kwSearch_ws_extend {kw t : List Char} (u : List Char)
    (hu : ∀ c ∈ u, jsWs c = true)
    (h : kwSearch kw t true = true) : kwSearch kw (u ++ t) true = true := by
  induction u with
  | nil => simpa using h
  | cons a au ih =>
    have ha : jsWs a = true := hu a (by simp)
    have hau : ∀ c ∈ au, jsWs c = true := fun c hc => hu c (by simp [hc])
    simp only [List.cons_append, kwSearch, Bool.or_eq_true]
    right
    rw [jsWs_not_word ha]
    simpa using ih hau

theorem kwSearch_jsTrim {kw l : List Char}
    (h : kwSearch kw (jsTrim l) true = true) : kwSearch kw l true = true := by
  obtain ⟨w, hw⟩ := dropTrailWs_prefixOf (dropLeadWs l)
  have h2 : kwSearch kw (dropLeadWs l) true = true := by
    rw [← hw]
    exact kwSearch_append_right w h
  have h3 : kwSearch kw (l.takeWhile jsWs ++ l.dropWhile jsWs) true = true := by
    refine kwSearch_ws_extend _ ?_ h2
    intro c hc
    exact List.mem_takeWhile_imp hc
  simpa [List.takeWhile_append_dropWhile] using h3

/-! ## Claim theorems -/

/-- C1: the SQL shape validator rejects every input that is not a non-empty
string (non-strings and the empty string), rejects every string not
matching `/^\s*(WITH|SELECT)\s+/i`, rejects every prefix-matching string
with no `/\bFROM\s+/i` or `/\bSELECT\s+/i` keyword occurrence, and accepts
the two sample queries. -/
theorem C1_validator_shape :
    isValidSqlQuery JsInput.nonString = false ∧
    isValidSqlQuery (JsInput.str "") = false ∧
    (∀ s : String, startRegex s.toList = false →
      isValidSqlQuery (JsInput.str s) = false) ∧
    (∀ s : String, startRegex s.toList = true →
      hasFromKw s = false → hasSelectKw s = false →
      isValidSqlQuery (JsInput.str s) = false) ∧
    isValidSqlQuery (JsInput.str "SELECT 1") = true ∧
    isValidSqlQuery (JsInput.str "WITH x AS (SELECT 1) SELECT * FROM x") = true := by
  refine ⟨rfl, by decide, ?_, ?_, by decide, by decide⟩
  · intro s h
    have h2 : startRegex (jsTrim s.data) = false := by
      cases hst : startRegex (jsTrim s.data)
      · rfl
      · have hr : startRegex s.data = true := startRegex_jsTrim hst
        rw [show startRegex s.toList = startRegex s.data from rfl, hr] at h
        exact absurd h (by simp)
    simp only [isValidSqlQuery]
    rw [show startRegex (jsTrim s.toList) = false from h2]
    simp
  · intro s _hpre h1 h2
    simp only [hasFromKw] at h1
    simp only [hasSelectKw] at h2
    have k1 : kwSearch fromKw (jsTrim s.data) true = false := by
      cases hk : kwSearch fromKw (jsTrim s.data) true
      · rfl
      · have hr : kwSearch fromKw s.data true = true := kwSearch_jsTrim hk
        rw [show kwSearch fromKw s.toList true = kwSearch fromKw s.data true
          from rfl, hr] at h1
        exact absurd h1 (by simp)
    have k2 : kwSearch selectKw (jsTrim s.data) true = false := by
      cases hk : kwSearch selectKw (jsTrim s.data) true
      · rfl
      · have hr : kwSearch selectKw s.data true = true := kwSearch_jsTrim hk
        rw [show kwSearch selectKw s.toList true = kwSearch selectKw s.data true
          from rfl, hr] at h2
        exact absurd h2 (by simp)
    simp only [isValidSqlQuery]
    rw [show kwSearch fromKw (jsTrim s.toList) true = false from k1,
      show kwSearch selectKw (jsTrim s.toList) true = false from k2]
    simp

/-- Witness for C1 at concrete inputs: a statement not starting with
WITH/SELECT is rejected, and a WITH-prefixed string with no FROM/SELECT
keyword is rejected. -/
theorem C1_validator_shape_witness :
    isValidSqlQuery (JsInput.str "DELETE FROM t WHERE 1=1") = false ∧
    isValidSqlQuery (JsInput.str "WITH x y") = false :=
  ⟨C1_validator_shape.2.2.1 _ (by decide),
   C1_validator_shape.2.2.2.1 _ (by decide) (by decide) (by decide)⟩

/-- C9: with a null/undefined or empty row set, both versions of
`getAiSummary` return their fixed no-results message and make zero calls
to the summarization service. -/
theorem C9_empty_rows_short_circuit :
    ∀ (service : Nat → SvcOut) (maxRetries : Nat),
      getAiSummary service (none : Option (List String)) maxRetries =
        ⟨.ok (some noResultsMsg), 0⟩ ∧
      getAiSummary service (some ([] : List String)) maxRetries =
        ⟨.ok (some noResultsMsg), 0⟩ ∧
      getAiSummaryLegacy (service 1) (none : Option (List String)) =
        ⟨.ok (some "The query ran successfully, but returned no results."), 0⟩ ∧
      getAiSummaryLegacy (service 1) (some ([] : List String)) =
        ⟨.ok (some "The query ran successfully, but returned no results."), 0⟩ := by
  intro service maxRetries
  exact ⟨rfl, rfl, rfl, rfl⟩

/-- C8: `executeQuery` releases the connection whenever one was acquired
(success, query error, or connection fault alike), passes row sets through
on success, and wraps every failure as a single
`Database execution error: <underlying message>`. -/
theorem C8_executeQuery_release_and_wrap :
    ∀ (connect : Except String Unit) (run : Except String (List Nat)),
      ((executeQuery connect run).acquired = true →
        (executeQuery connect run).released = true) ∧
      (∀ rows, connect = .ok () → run = .ok rows →
        (executeQuery connect run).result = .ok rows) ∧
      (∀ m, (executeQuery connect run).result = .error m →
        ∃ u, m = "Database execution error: " ++ u ∧
          (connect = .error u ∨ run = .error u)) := by
  intro connect run
  cases connect with
  | error m0 =>
    refine ⟨fun h => by simp [executeQuery] at h, ?_, ?_⟩
    · intro rows hc _
      exact absurd hc (by simp)
    · intro m hm
      simp only [executeQuery] at hm
      exact ⟨m0, by cases hm; rfl, Or.inl rfl⟩
  | ok u =>
    cases u
    cases run with
    | ok rows =>
      refine ⟨fun _ => rfl, fun rows2 _ hr => ?_, ?_⟩
      · cases hr
        rfl
      · intro m hm
        simp [executeQuery] at hm
    | error m0 =>
      refine ⟨fun _ => rfl, ?_, ?_⟩
      · intro rows _ hr
        exact absurd hr (by simp)
      · intro m hm
        simp only [executeQuery] at hm
        exact ⟨m0, by cases hm; rfl, Or.inr rfl⟩

/-- Witness for C8: a failing query on a healthy connection is wrapped and
the connection is released. -/
theorem C8_executeQuery_witness :
    (executeQuery (Except.ok ()) (Except.error "syntax error at or near")
        : DbRun Nat).released = true ∧
    (executeQuery (Except.ok ()) (Except.error "syntax error at or near")
        : DbRun Nat).result =
      Except.error "Database execution error: syntax error at or near" ∧
    (executeQuery (Except.ok ()) (Except.ok [7]) : DbRun Nat).result =
      Except.ok [7] := by
  refine ⟨?_, rfl, ?_⟩
  · exact (C8_executeQuery_release_and_wrap (Except.ok ())
      (Except.error "syntax error at or near")).1 rfl
  · exact (C8_executeQuery_release_and_wrap (Except.ok ())
      (Except.ok [7])).2.1 [7] rfl rfl

/-- C10: a request whose body has no `query` field, or an empty-string
`query`, gets a 400 response with error `Query is required.` and triggers
no generation call, no validation, and no database call. -/
theorem C10_missing_query_400 :
    ∀ (sqlSvc sumSvc : Nat → SvcOut) (connect : Except String Unit)
      (run : Except String (List String)) (body : Option String),
      body = none ∨ body = some "" →
      handleApiQuery sqlSvc sumSvc connect run body =
        (⟨400, some "Query is required.", none, none, none⟩,
         ⟨0, false, false, 0⟩) := by
  intro sqlSvc sumSvc connect run body h
  rcases h with h | h <;> subst h <;> rfl

/-- Witness for C10 at a concrete environment and both rejected bodies. -/
theorem C10_missing_query_400_witness :
    handleApiQuery (fun _ => SvcOut.err none "x") (fun _ => SvcOut.err none "x")
        (Except.ok ()) (Except.ok []) none =
      (⟨400, some "Query is required.", none, none, none⟩,
       ⟨0, false, false, 0⟩) ∧
    handleApiQuery (fun _ => SvcOut.err none "x") (fun _ => SvcOut.err none "x")
        (Except.ok ()) (Except.ok []) (some "") =
      (⟨400, some "Query is required.", none, none, none⟩,
       ⟨0, false, false, 0⟩) :=
  ⟨C10_missing_query_400 _ _ _ _ none (Or.inl rfl),
   C10_missing_query_400 _ _ _ _ (some "") (Or.inr rfl)⟩

/-- Every iteration of the `getAiSummary` retry loop returns a string: on
service success, the trimmed content or the `foundMsg` fallback; on a
caught error, retry or the `exhaustMsg` fallback on the final attempt. -/
theorem getAiSummaryLoop_total (service : Nat → SvcOut) (n maxRetries : Nat) :
    ∀ fuel attempt, attempt + fuel = maxRetries + 1 → 1 ≤ fuel →
      ∃ s, (getAiSummaryLoop service n maxRetries attempt fuel).result =
        .ok (some s) := by
  intro fuel
  induction fuel with
  | zero => intro attempt _ h1; exact absurd h1 (by simp)
  | succ k ih =>
    intro attempt hsum _
    cases hsa : service attempt with
    | ok content =>
      refine ⟨if jsTrimStr (content.getD "") = "" then foundMsg n
        else jsTrimStr (content.getD ""), ?_⟩
      simp [getAiSummaryLoop, hsa]
    | err st m =>
      by_cases hat : attempt = maxRetries
      · subst hat
        exact ⟨exhaustMsg n, by simp [getAiSummaryLoop, hsa]⟩
      · have hk : 1 ≤ k := by omega
        obtain ⟨s, hs⟩ := ih (attempt + 1) (by omega) hk
        exact ⟨s, by simp [getAiSummaryLoop, hsa, hat, hs]⟩

/-- When every service attempt fails, the `getAiSummary` retry loop ends by
returning the row-count fallback message. -/
theorem getAiSummaryLoop_allfail (service : Nat → SvcOut) (n maxRetries : Nat)
    (h : ∀ a, isErrOut (service a) = true) :
    ∀ fuel attempt, attempt + fuel = maxRetries + 1 → 1 ≤ fuel →
      (getAiSummaryLoop service n maxRetries attempt fuel).result =
        .ok (some (exhaustMsg n)) := by
  intro fuel
  induction fuel with
  | zero => intro attempt _ h1; exact absurd h1 (by simp)
  | succ k ih =>
    intro attempt hsum _
    cases hsa : service attempt with
    | ok content =>
      have := h attempt
      rw [hsa] at this
      exact absurd this (by simp [isErrOut])
    | err st m =>
      by_cases hat : attempt = maxRetries
      · subst hat
        simp [getAiSummaryLoop, hsa]
      · have hk : 1 ≤ k := by omega
        have hr := ih (attempt + 1) (by omega) hk
        simp [getAiSummaryLoop, hsa, hat, hr]

/-- C4: with a non-empty row set (and at least one allowed attempt, as in
the fixed default `maxRetries = 2`), `getAiSummary` always returns a
string — it never propagates an error — and when every summarization
attempt fails it returns the generic templated message reporting only the
row count. -/
theorem C4_summary_never_fails :
    ∀ (service : Nat → SvcOut) (rows : List String) (maxRetries : Nat),
      rows ≠ [] → 1 ≤ maxRetries →
      (∃ s, (getAiSummary service (some rows) maxRetries).result =
        .ok (some s)) ∧
      ((∀ a, isErrOut (service a) = true) →
        (getAiSummary service (some rows) maxRetries).result =
          .ok (some (exhaustMsg rows.length))) := by
  intro service rows maxRetries hrows hmax
  cases rows with
  | nil => exact absurd rfl hrows
  | cons x xs =>
    constructor
    · exact getAiSummaryLoop_total service (x :: xs).length maxRetries
        maxRetries 1 (by omega) hmax
    · intro hfail
      exact getAiSummaryLoop_allfail service (x :: xs).length maxRetries hfail
        maxRetries 1 (by omega) hmax

/-- Witness for C4: a service that always fails, two attempts, one row:
the result is the templated fallback for one row. -/
theorem C4_summary_never_fails_witness :
    (getAiSummary (fun _ => SvcOut.err none "boom") (some ["r"]) 2).result =
      Except.ok (some (exhaustMsg 1)) := by
  have h := C4_summary_never_fails (fun _ => SvcOut.err none "boom") ["r"] 2
    (by simp) (by omega)
  exact h.2 (fun a => rfl)

/-- A service response that is empty after trimming makes the `try` body
throw `Empty SQL response from AI`. -/
theorem attemptOnce_emptyResponse {o : SvcOut} (h : emptyResponse o = true) :
    attemptOnce o = .error (none, "Empty SQL response from AI") := by
  cases o with
  | ok c =>
    have hc : jsTrimStr (c.getD "") = "" := by simpa [emptyResponse] using h
    simp [attemptOnce, hc]
  | err st m => simp [emptyResponse] at h

/-- When every attempt yields an empty-after-trim response, the `getAiSql`
loop exhausts its attempts and throws the wrapped empty-response failure. -/
theorem getAiSqlLoop_allempty (service : Nat → SvcOut) (maxRetries : Nat)
    (h : ∀ a, emptyResponse (service a) = true) :
    ∀ fuel attempt, attempt + fuel = maxRetries + 1 → 1 ≤ fuel →
      (getAiSqlLoop service maxRetries attempt fuel).result =
        .error ("Failed to generate SQL after " ++ toString maxRetries ++
          " attempts: " ++ "Empty SQL response from AI") := by
  intro fuel
  induction fuel with
  | zero => intro attempt _ h1; exact absurd h1 (by simp)
  | succ k ih =>
    intro attempt hsum _
    have ha := attemptOnce_emptyResponse (h attempt)
    by_cases hat : attempt = maxRetries
    · subst hat
      simp [getAiSqlLoop, ha]
    · have hk : 1 ≤ k := by omega
      have hr := ih (attempt + 1) (by omega) hk
      simp [getAiSqlLoop, ha, hat, hr]

/-- C3 counterexample: the claim fails on the code.  The response
consisting of a bare code fence is non-empty after trimming (so it passes
the only emptiness check, which runs before fence stripping) but empty
after stripping fence markers; `getAiSql` then returns the empty string to
the caller instead of surfacing a failure. -/
theorem C3_counterexample :
    jsTrimStr "```" ≠ "" ∧
    cleanupSql (jsTrimStr "```").toList = [] ∧
    (getAiSql (fun _ => SvcOut.ok (some "```")) 3).result =
      Except.ok (some "") :=
  ⟨by decide, rfl, rfl⟩

/-- C3 amended: the emptiness check runs before fence stripping, so the
failure is guaranteed only for responses empty after trimming: when every
attempt's response is empty after trimming, `getAiSql` surfaces the wrapped
`Empty SQL response from AI` failure rather than returning the empty
string.  (A response that becomes empty only after stripping fence markers
is returned as the empty string, per the counterexample.) -/
theorem C3_amended_empty_after_trim_fails :
    ∀ (service : Nat → SvcOut) (maxRetries : Nat), 1 ≤ maxRetries →
      (∀ a, emptyResponse (service a) = true) →
      (getAiSql service maxRetries).result =
        Except.error ("Failed to generate SQL after " ++ toString maxRetries ++
          " attempts: " ++ "Empty SQL response from AI") := by
  intro service maxRetries h1 h2
  have hg : getAiSql service maxRetries =
      getAiSqlLoop service maxRetries 1 maxRetries := rfl
  rw [hg]
  exact getAiSqlLoop_allempty service maxRetries h2 maxRetries 1 (by omega) h1

/-- Witness for the amended C3: a whitespace-only response on every
attempt produces the wrapped failure. -/
theorem C3_amended_witness :
    (getAiSql (fun _ => SvcOut.ok (some "   ")) 3).result =
      Except.error ("Failed to generate SQL after " ++ toString 3 ++
        " attempts: " ++ "Empty SQL response from AI") := by
  have he : emptyResponse (SvcOut.ok (some "   ")) = true := by decide
  exact C3_amended_empty_after_trim_fails (fun _ => SvcOut.ok (some "   ")) 3
    (by omega) (fun a => he)

/-- C5 counterexample: the claim that only service-unavailable (503)
failures are retried fails on the code.  A status-500 failure on the first
attempt falls through the catch block into the next loop iteration: the run
makes a second service call (with no delay) and succeeds. -/
theorem C5_counterexample :
    (getAiSql (fun a => if a = 1 then SvcOut.err (some 500) "Internal error"
        else SvcOut.ok (some "SELECT 1 FROM t")) 3).calls = 2 ∧
    (getAiSql (fun a => if a = 1 then SvcOut.err (some 500) "Internal error"
        else SvcOut.ok (some "SELECT 1 FROM t")) 3).result =
      Except.ok (some "SELECT 1 FROM t") ∧
    (getAiSql (fun a => if a = 1 then SvcOut.err (some 500) "Internal error"
        else SvcOut.ok (some "SELECT 1 FROM t")) 3).delays = [] :=
  ⟨rfl, rfl, rfl⟩

/-- One-step unfolding of the `getAiSql` retry loop. -/
theorem getAiSqlLoop_step (service : Nat → SvcOut) (M attempt fuel : Nat) :
    getAiSqlLoop service M attempt (fuel + 1) =
      match attemptOnce (service attempt) with
      | .ok sql => ⟨.ok (some sql), 1, []⟩
      | .error (st, msg) =>
        if st = some 503 ∧ attempt < M then
          ⟨(getAiSqlLoop service M (attempt + 1) fuel).result,
           (getAiSqlLoop service M (attempt + 1) fuel).calls + 1,
           attempt * 2000 :: (getAiSqlLoop service M (attempt + 1) fuel).delays⟩
        else if attempt = M then
          ⟨.error ("Failed to generate SQL after " ++ toString M ++
            " attempts: " ++ msg), 1, []⟩
        else
          ⟨(getAiSqlLoop service M (attempt + 1) fuel).result,
           (getAiSqlLoop service M (attempt + 1) fuel).calls + 1,
           (getAiSqlLoop service M (attempt + 1) fuel).delays⟩ := rfl

/-- When every attempt fails, the `getAiSql` loop makes exactly one call
per remaining attempt, sleeps `attempt * 2000` ms exactly before the
retries of 503 failures, and ends by throwing the wrapped failure built
from the final attempt's message. -/
theorem getAiSqlLoop_allfail (service : Nat → SvcOut) (maxRetries : Nat)
    (h : ∀ a, isErrOut (service a) = true) :
    ∀ fuel attempt, attempt + fuel = maxRetries + 1 → 1 ≤ fuel →
      getAiSqlLoop service maxRetries attempt fuel =
        ⟨.error ("Failed to generate SQL after " ++ toString maxRetries ++
            " attempts: " ++ errMsgOf (service maxRetries)),
         fuel,
         ((List.range' attempt (fuel - 1)).filter
            (fun a => decide (statusOf (service a) = some 503))).map
          (fun a => a * 2000)⟩ := by
  intro fuel
  induction fuel with
  | zero => intro attempt _ h1; exact absurd h1 (by simp)
  | succ k ih =>
    intro attempt hsum _
    obtain ⟨st, m, hsa⟩ : ∃ st m, service attempt = SvcOut.err st m := by
      cases hsv : service attempt with
      | ok c =>
        have hx := h attempt
        rw [hsv] at hx
        exact absurd hx (by simp [isErrOut])
      | err st m => exact ⟨st, m, rfl⟩
    have ha : attemptOnce (service attempt) = Except.error (st, m) := by
      rw [hsa]
      rfl
    by_cases hat : attempt = maxRetries
    · subst hat
      have hk : k = 0 := by omega
      subst hk
      have hc : ¬(st = some 503 ∧ attempt < attempt) := by simp
      rw [getAiSqlLoop_step, ha]
      simp [hc, hsa, errMsgOf]
    · have hlt : attempt < maxRetries := by omega
      have hk : 1 ≤ k := by omega
      obtain ⟨j, rfl⟩ : ∃ j, k = j + 1 := ⟨k - 1, by omega⟩
      have hr := ih (attempt + 1) (by omega) hk
      by_cases h503 : st = some 503
      · subst h503
        rw [getAiSqlLoop_step, ha, hr]
        simp [hlt, hsa, statusOf, List.range', List.filter_cons]
      · have hc : ¬(st = some 503 ∧ attempt < maxRetries) := by
          intro hx
          exact h503 hx.1
        rw [getAiSqlLoop_step, ha, hr]
        simp [hc, hat, hsa, statusOf, h503, List.range', List.filter_cons]

/-- C5 amended: `getAiSql` retries every failed generation attempt (not
only service-unavailable ones) up to `maxRetries` total attempts; the
linearly increasing sleep of `attempt * 2000` ms happens exactly before the
retries of failures whose status is 503; and on exhausting the bound it
surfaces the wrapped generation failure carrying the final attempt's
message. -/
theorem C5_amended_retry_policy :
    ∀ (service : Nat → SvcOut) (maxRetries : Nat), 1 ≤ maxRetries →
      (∀ a, isErrOut (service a) = true) →
      (getAiSql service maxRetries).result =
        Except.error ("Failed to generate SQL after " ++ toString maxRetries ++
          " attempts: " ++ errMsgOf (service maxRetries)) ∧
      (getAiSql service maxRetries).calls = maxRetries ∧
      (getAiSql service maxRetries).delays =
        ((List.range' 1 (maxRetries - 1)).filter
          (fun a => decide (statusOf (service a) = some 503))).map
        (fun a => a * 2000) := by
  intro service maxRetries h1 h2
  have hg : getAiSql service maxRetries =
      getAiSqlLoop service maxRetries 1 maxRetries := rfl
  have h := getAiSqlLoop_allfail service maxRetries h2 maxRetries 1
    (by omega) h1
  rw [hg, h]
  exact ⟨rfl, rfl, rfl⟩

/-- Witness for the amended C5: three failing attempts with statuses
503, 500, 500 produce three calls, one 2000 ms delay (before the retry of
the 503 failure only), and the wrapped final message. -/
theorem C5_amended_witness :
    (getAiSql (fun a => SvcOut.err (if a = 1 then some 503 else some 500)
        "boom") 3).result =
      Except.error ("Failed to generate SQL after " ++ toString 3 ++
        " attempts: " ++ "boom") ∧
    (getAiSql (fun a => SvcOut.err (if a = 1 then some 503 else some 500)
        "boom") 3).calls = 3 ∧
    (getAiSql (fun a => SvcOut.err (if a = 1 then some 503 else some 500)
        "boom") 3).delays = [2000] := by
  have h := C5_amended_retry_policy
    (fun a => SvcOut.err (if a = 1 then some 503 else some 500) "boom") 3
    (by omega) (fun a => rfl)
  refine ⟨h.1, h.2.1, ?_⟩
  rw [h.2.2]
  rfl

/-- C2: on the claim's own instance (attendance 40, rated-percentage 50,
responses absent) the back-fill branch is entered, but the source assigns
to the `const responses` binding, so processing raises a TypeError — which
aborts the whole ETL run — instead of storing the derived value.  The
expression the line intends to compute does evaluate to 20, as the spec
says. -/
theorem C2_responses_backfill_bug :
    processRow ⟨"T1", "Live Class", "Backend", "Algo", "Jane",
      none, none, some 40, some 50, some "2025-01-04"⟩ true =
      RowStep.fatal "TypeError: Assignment to constant variable." ∧
    deriveResponses 40 50 = 20 := by
  refine ⟨rfl, ?_⟩
  norm_num [deriveResponses, jsRound]

/-- C7 counterexample: the claim that bad-date rejections are counted
separately from the skipped count fails on the code.  A batch holding one
record with every required field present but an unparseable date reports
`skipped = 1` as well as `badDate = 1` (`badDate++; skipped++`), so the
skipped count does not cover only missing-required-field records. -/
theorem C7_counterexample :
    runEtl [(⟨"T", "Live Class", "Backend", "Algo", "Jane",
      some 4, some 10, some 20, some 50, none⟩, true)] =
      Except.ok ⟨0, 0, 1, 1⟩ := rfl

/-- C7 amended: each rejected record is counted in `badDate` exactly when
its date cannot be normalized, and the reported skipped count equals the
missing-required-field rejections plus the bad-date rejections (bad-date
records increment both counters). -/
theorem C7_amended_rejection_counts :
    ∀ (rows : List (RawRecord × Bool)) (c : EtlCounts),
      runEtl rows = Except.ok c →
      c.skipped = countMissing rows + c.badDate ∧
      c.badDate = countBadDate rows := by
  intro rows
  induction rows with
  | nil =>
    intro c hc
    simp only [runEtl, Except.ok.injEq] at hc
    subst hc
    simp [countMissing, countBadDate]
  | cons rb rest ih =>
    intro c hc
    simp only [runEtl] at hc
    cases hp : processRow rb.1 rb.2 with
    | fatal m =>
      rw [hp] at hc
      simp at hc
    | skippedMissing =>
      rw [hp] at hc
      cases hrest : runEtl rest with
      | error m => rw [hrest] at hc; simp at hc
      | ok c0 =>
        rw [hrest] at hc
        simp at hc
        subst hc
        obtain ⟨ih1, ih2⟩ := ih c0 hrest
        have hcm : countMissing (rb :: rest) = countMissing rest + 1 := by
          simp [countMissing, List.countP_cons, hp]
        have hcb : countBadDate (rb :: rest) = countBadDate rest := by
          simp [countBadDate, List.countP_cons, hp]
        constructor
        · simp [hcm]; omega
        · simp [hcb]; omega
    | skippedBadDate =>
      rw [hp] at hc
      cases hrest : runEtl rest with
      | error m => rw [hrest] at hc; simp at hc
      | ok c0 =>
        rw [hrest] at hc
        simp at hc
        subst hc
        obtain ⟨ih1, ih2⟩ := ih c0 hrest
        have hcm : countMissing (rb :: rest) = countMissing rest := by
          simp [countMissing, List.countP_cons, hp]
        have hcb : countBadDate (rb :: rest) = countBadDate rest + 1 := by
          simp [countBadDate, List.countP_cons, hp]
        constructor
        · simp [hcm]; omega
        · simp [hcb]; omega
    | upserted b =>
      rw [hp] at hc
      have hcm : countMissing (rb :: rest) = countMissing rest := by
        simp [countMissing, List.countP_cons, hp]
      have hcb : countBadDate (rb :: rest) = countBadDate rest := by
        simp [countBadDate, List.countP_cons, hp]
      cases b with
      | true =>
        cases hrest : runEtl rest with
        | error m => rw [hrest] at hc; simp at hc
        | ok c0 =>
          rw [hrest] at hc
          simp at hc
          subst hc
          obtain ⟨ih1, ih2⟩ := ih c0 hrest
          constructor
          · simp [hcm]; omega
          · simp [hcb]; omega
      | false =>
        cases hrest : runEtl rest with
        | error m => rw [hrest] at hc; simp at hc
        | ok c0 =>
          rw [hrest] at hc
          simp at hc
          subst hc
          obtain ⟨ih1, ih2⟩ := ih c0 hrest
          constructor
          · simp [hcm]; omega
          · simp [hcb]; omega

/-- Witness for the amended C7: a batch with one missing-instructor record,
one bad-date record, and one good record reports skipped 2 = missing 1 +
badDate 1. -/
theorem C7_amended_witness :
    (⟨1, 0, 2, 1⟩ : EtlCounts).skipped =
      countMissing
        [(⟨"T", "Live Class", "Backend", "Algo", "",
            some 4, some 10, some 20, some 50, some "2025-01-04"⟩, true),
         (⟨"T", "Live Class", "Backend", "Algo", "Jane",
            some 4, some 10, some 20, some 50, none⟩, true),
         (⟨"T", "Live Class", "Backend", "Algo", "Jane",
            some 4, some 10, some 20, some 50, some "2025-01-04"⟩, true)] +
        (⟨1, 0, 2, 1⟩ : EtlCounts).badDate ∧
    (⟨1, 0, 2, 1⟩ : EtlCounts).badDate =
      countBadDate
        [(⟨"T", "Live Class", "Backend", "Algo", "",
            some 4, some 10, some 20, some 50, some "2025-01-04"⟩, true),
         (⟨"T", "Live Class", "Backend", "Algo", "Jane",
            some 4, some 10, some 20, some 50, none⟩, true),
         (⟨"T", "Live Class", "Backend", "Algo", "Jane",
            some 4, some 10, some 20, some 50, some "2025-01-04"⟩, true)] :=
  C7_amended_rejection_counts _ ⟨1, 0, 2, 1⟩ rfl

/-- C6: when the fact upsert conflicts on the natural key, the stored row
keeps all of its dimension-reference and calendar columns (and its topic
code) and has exactly its four metric columns overwritten with the
incoming row's values; the table does not grow. -/
theorem C6_upsert_conflict_frame :
    ∀ (db : List FactRow) (row r : FactRow),
      r ∈ db → sqlKeyMatch r row = true →
      (upsertFact db row).length = db.length ∧
      metricOverwrite r row ∈ upsertFact db row ∧
      (metricOverwrite r row).topic_code = r.topic_code ∧
      (metricOverwrite r row).type_id = r.type_id ∧
      (metricOverwrite r row).domain_id = r.domain_id ∧
      (metricOverwrite r row).class_id = r.class_id ∧
      (metricOverwrite r row).instructor_id = r.instructor_id ∧
      (metricOverwrite r row).session_ts_utc = r.session_ts_utc ∧
      (metricOverwrite r row).pst_date = r.pst_date ∧
      (metricOverwrite r row).pst_year = r.pst_year ∧
      (metricOverwrite r row).pst_month = r.pst_month ∧
      (metricOverwrite r row).pst_quarter = r.pst_quarter ∧
      (metricOverwrite r row).pst_month_start = r.pst_month_start ∧
      (metricOverwrite r row).average = row.average ∧
      (metricOverwrite r row).responses = row.responses ∧
      (metricOverwrite r row).students_attended = row.students_attended ∧
      (metricOverwrite r row).rated_pct = row.rated_pct := by
  intro db row r hmem hkey
  have hany : db.any (fun x => sqlKeyMatch x row) = true :=
    List.any_eq_true.mpr ⟨r, hmem, hkey⟩
  refine ⟨?_, ?_, rfl, rfl, rfl, rfl, rfl, rfl, rfl, rfl, rfl, rfl, rfl,
    rfl, rfl, rfl, rfl⟩
  · simp [upsertFact, hany]
  · have hmap := List.mem_map_of_mem
      (fun x => if sqlKeyMatch x row then metricOverwrite x row else x) hmem
    simpa [upsertFact, hany, hkey] using hmap

/-- Witness for C6: upserting a conflicting row over a one-row table keeps
the table size, stores the metric-overwritten row, and that row keeps the
old timestamp and calendar while taking the new average. -/
theorem C6_upsert_conflict_frame_witness :
    (upsertFact [factRowA] factRowB).length = 1 ∧
    metricOverwrite factRowA factRowB ∈ upsertFact [factRowA] factRowB ∧
    (metricOverwrite factRowA factRowB).session_ts_utc =
      "2025-01-04T17:00:00Z" ∧
    (metricOverwrite factRowA factRowB).pst_year = 2025 ∧
    (metricOverwrite factRowA factRowB).average = some (9 / 2 : ℚ) := by
  have h := C6_upsert_conflict_frame [factRowA] factRowB factRowA
    (by simp) (by decide)
  exact ⟨h.1, h.2.1, rfl, rfl, rfl⟩
